import Mathlib

/-!
Verification development for the Atrium decision-session service
(`interfaces/http/main.py` and `interfaces/http/db.py`).

The relational store is embedded as explicit lists of rows (one list per
table of `SCHEMA_SQL` in `db.py`), with AUTOINCREMENT primary keys embedded
as `next…Id` counters.  A `sqlite3.Connection` handed to a reducer function
corresponds to a `DB` value (or to the table lists it reads); `datetime('now')`
and `datetime.now(UTC)` are embedded as an explicit `now : Nat` clock
parameter.  `SELECT … WHERE` with at most one possible match (guaranteed by a
primary key or by the unique indexes of `init_db`) is embedded as `List.find?`;
multi-row `SELECT`/`UPDATE`/`DELETE` as `List.filter`/`List.map`.  Payload
values are modelled as strings (the Python code coerces them with `str`), and
Python's `str.strip` / `str.isdigit` are modelled over ASCII whitespace and
ASCII decimal digits.  Fallible handlers return `Except Err`; an uncaught
exception aborts the `get_conn` context manager of `db.py` before its
`conn.commit()`, so a failing event commits nothing (see `runIngest`).
-/

/-- Node kinds, `NodeType` in `main.py` (`CHECK(type IN …)` in `db.py`). -/
inductive NodeType where
  | question
  | decision
  | task
deriving DecidableEq

/-- Node statuses, `NodeStatus` in `main.py`.  The source value `"open"` is a
Lean keyword, hence the trailing underscore. -/
inductive NodeStatus where
  | open_
  | in_progress
  | blocked
  | done
deriving DecidableEq

/-- Event types accepted by the reducer, `EventType` in `main.py`. -/
inductive EventType where
  | question_presented
  | choice_selected
  | note_added
  | node_status_changed
deriving DecidableEq

/-- A row of the `sessions` table. -/
structure Session where
  id : Nat
  external_id : Option String
  name : String
  started_at : Option Nat
  ended_at : Option Nat
  created_at : Nat
deriving DecidableEq

/-- A row of the `nodes` table. -/
structure Node where
  id : Nat
  session_id : Nat
  external_ref : Option String
  type : NodeType
  title : String
  status : NodeStatus
  rationale : Option String
  owner : Option String
  priority : Option Int
  context_prompt : Option String
  created_at : Nat
  updated_at : Nat
deriving DecidableEq

/-- A row of the `choices` table. -/
structure Choice where
  id : Nat
  node_id : Nat
  label : String
  text : String
  is_chosen : Bool
  chosen_at : Option Nat
deriving DecidableEq

/-- A row of the `edges` table (`type` is always `'leads_to'` by the schema
CHECK constraint, so it is not repeated here). -/
structure Edge where
  id : Nat
  from_node_id : Nat
  to_node_id : Nat
  created_at : Nat
deriving DecidableEq

/-- One item of `payload.choices`: either a bare string or a
`{label, text}` mapping (absent keys are `none`). -/
inductive ChoiceItem where
  | str (s : String)
  | obj (label : Option String) (text : Option String)
deriving DecidableEq

/-- The loosely-typed event payload of `EventIn.payload`; only the keys the
reducer reads are modelled, each as an optional string (the reducer coerces
values with `str(...)`).  `choices` is an optional list of items
(`payload.get("choices", [])`). -/
structure Payload where
  title : Option String := none
  node_ref : Option String := none
  context_prompt : Option String := none
  rationale : Option String := none
  choices : Option (List ChoiceItem) := none
  parent_node_ref : Option String := none
  from_node_ref : Option String := none
  question_node_ref : Option String := none
  choice_label : Option String := none
  choice_text : Option String := none
  note : Option String := none
  status : Option String := none
deriving DecidableEq

/-- The ingestion input record, `EventIn` in `main.py`. -/
structure EventIn where
  source : String := "mcp"
  event_type : EventType
  session_external_id : String
  agent_name : Option String := none
  payload : Payload := {}
deriving DecidableEq

/-- A row of the append-only `event_log` table.  The serialized
`payload_json` column is embedded as the event record itself. -/
structure EventLogEntry where
  id : Nat
  session_id : Nat
  source : String
  event_type : EventType
  payload_json : EventIn
  received_at : Nat
deriving DecidableEq

/-- The ingestion result record, `EventIngestOut` in `main.py`. -/
structure EventIngestOut where
  event_log_id : Nat
  session_id : Nat
  affected_node_id : Option Nat
deriving DecidableEq

/-- The whole store: the five tables of `SCHEMA_SQL` plus the AUTOINCREMENT
counters of their integer primary keys. -/
structure DB where
  sessions : List Session := []
  nodes : List Node := []
  choices : List Choice := []
  edges : List Edge := []
  eventLog : List EventLogEntry := []
  nextSessionId : Nat := 1
  nextNodeId : Nat := 1
  nextChoiceId : Nat := 1
  nextEdgeId : Nat := 1
  nextEventLogId : Nat := 1
deriving DecidableEq

/-- Errors raised by the reducer (`HTTPException` in `main.py`): 400
bad-request/validation errors, 404 not-found errors, the store's uniqueness
violation (`sqlite3.IntegrityError` from the unique index
`idx_nodes_external_ref`), and the two error conditions of the spec's replay
prompt synthesizer. -/
inductive Err where
  | badRequest (detail : String)
  | notFound (detail : String)
  | integrity
  | nodeNotFound
  | choiceNotFound
deriving DecidableEq

instance [DecidableEq ε] [DecidableEq α] : DecidableEq (Except ε α) := fun a b =>
  match a, b with
  | .ok x, .ok y => decidable_of_iff (x = y) (by simp)
  | .error x, .error y => decidable_of_iff (x = y) (by simp)
  | .ok _, .error _ => isFalse (by simp)
  | .error _, .ok _ => isFalse (by simp)

/-- `true` exactly on 404 not-found errors (including the replay synthesizer's
NodeNotFound / ChoiceNotFound conditions). -/
def Except.isNotFoundErr : Except Err α → Bool
  | .error (.notFound _) => true
  | .error .nodeNotFound => true
  | .error .choiceNotFound => true
  | _ => false

/-- `true` exactly on 400 validation errors. -/
def Except.isBadRequestErr : Except Err α → Bool
  | .error (.badRequest _) => true
  | _ => false

/-- ASCII whitespace, the characters stripped by Python's `str.strip()` on the
inputs this service sees. -/
def isSpaceChar (c : Char) : Bool :=
  c = ' ' || c = '\t' || c = '\n' || c = '\r'

/-- Python's `str.strip()`: drop whitespace from both ends. -/
def pyStrip (s : String) : String :=
  ⟨(((s.data.dropWhile isSpaceChar).reverse.dropWhile isSpaceChar).reverse)⟩

/-- Python's `str.isdigit()` restricted to ASCII: non-empty and all decimal
digits. -/
def isDigitString (s : String) : Bool :=
  !s.data.isEmpty && s.data.all Char.isDigit

/-- The numeric value of a list of decimal digits, most significant first. -/
def digitsToNat (cs : List Char) : Nat :=
  cs.foldl (fun acc c => acc * 10 + (c.toNat - 48)) 0

/-- Python's `int(...)` on a digit string. -/
def refToNat (s : String) : Nat :=
  digitsToNat s.data

/-- Python's `a or b` on two optional strings: `a` unless it is falsy
(`None` or the empty string). -/
def pyOr (a b : Option String) : Option String :=
  match a with
  | some s => if s = "" then b else some s
  | none => b

/-- Python's `x or d` where `x` is an optional string and `d` a default
string. -/
def pyOrDefault (a : Option String) (d : String) : String :=
  match a with
  | some s => if s = "" then d else s
  | none => d

/-- `_clean_ref` in `main.py`: `None` stays `None`, otherwise strip and map
the empty result to `None`. -/
def cleanRef (value : Option String) : Option String :=
  match value with
  | none => none
  | some v =>
    let text := pyStrip v
    if text = "" then none else some text

/-- The auto-label `chr(65 + index)` of `_normalize_choice`. -/
def autoLabel (index : Nat) : String :=
  String.singleton (Char.ofNat (65 + index))

/-- `_normalize_choice` in `main.py`: a mapping uses its label (falling back
to the positional auto-label when the label is `None` or empty) and its text,
both stripped; a bare string gets the auto-label and its stripped self as
text. -/
def normalizeChoice (item : ChoiceItem) (index : Nat) : String × String :=
  match item with
  | .obj label text =>
    (pyStrip (pyOrDefault label (autoLabel index)), pyStrip (pyOrDefault text ""))
  | .str s => (autoLabel index, pyStrip s)

/-- `_resolve_node_id` in `main.py`.  The `conn` argument is embedded as the
`nodes` table it reads.  A falsy ref resolves to "no reference supplied"
(`none`); a digit string is looked up as an internal id constrained to the
session; anything else as an external reference tag constrained to the
session. -/
def resolveNodeId (nodes : List Node) (session_id : Nat) (node_ref : Option String) : Option Nat :=
  match node_ref with
  | none => none
  | some r =>
    if r = "" then none
    else if isDigitString r then
      (nodes.find? (fun n => decide (n.id = refToNat r ∧ n.session_id = session_id))).map (·.id)
    else
      (nodes.find? (fun n => decide (n.external_ref = some r ∧ n.session_id = session_id))).map (·.id)

/-- `_latest_question_node_id` in `main.py`: `ORDER BY id DESC LIMIT 1` over
the session's question nodes, i.e. the maximal id among them. -/
def latestQuestionNodeId (nodes : List Node) (session_id : Nat) : Option Nat :=
  let qs := nodes.filter (fun n => decide (n.session_id = session_id ∧ n.type = .question))
  match qs with
  | [] => none
  | n :: rest =>
    some ((rest.map (·.id)).foldl max n.id)

/-- `_get_or_create_session_id` in `main.py`: look the external tag up among
the sessions; on a miss insert a fresh session named `Session <tag>` with
`started_at = now` and return its id. -/
def getOrCreateSessionId (db : DB) (now : Nat) (session_external_id : String) : Nat × DB :=
  match db.sessions.find? (fun s => decide (s.external_id = some session_external_id)) with
  | some s => (s.id, db)
  | none =>
    let sid := db.nextSessionId
    (sid,
      { db with
        sessions := db.sessions ++
          [{ id := sid, external_id := some session_external_id,
             name := "Session " ++ session_external_id,
             started_at := some now, ended_at := none, created_at := now }],
        nextSessionId := sid + 1 })

/-- The node row inserted by `_apply_question_presented` (the `INSERT INTO
nodes … VALUES (?, 'question', ?, 'open', …)` statement), given the already
cleaned payload fields. -/
def mkQuestionNode (db : DB) (now : Nat) (session_id : Nat) (title : String)
    (rationale owner context_prompt node_ref : Option String) : Node :=
  { id := db.nextNodeId, session_id := session_id, external_ref := node_ref,
    type := .question, title := title, status := .open_,
    rationale := rationale, owner := owner, priority := none,
    context_prompt := context_prompt, created_at := now, updated_at := now }

/-- The choice-insertion loop of `_apply_question_presented`: for each payload
item in order, normalize it, skip it when its stripped text is empty, and
otherwise run `INSERT OR REPLACE INTO choices` — which, by the unique index
`idx_choices_node_label` of `db.py`, deletes any existing row with the same
`(node_id, label)` and appends a fresh row (fresh id, `is_chosen = 0`,
`chosen_at = NULL`). -/
def insertChoicesAux (node_id : Nat) (items : List ChoiceItem) (index : Nat)
    (cs : List Choice) (nextId : Nat) : List Choice × Nat :=
  match items with
  | [] => (cs, nextId)
  | item :: rest =>
    let lt := normalizeChoice item index
    if lt.2 = "" then
      insertChoicesAux node_id rest (index + 1) cs nextId
    else
      insertChoicesAux node_id rest (index + 1)
        (cs.filter (fun c => !(decide (c.node_id = node_id ∧ c.label = lt.1))) ++
          [{ id := nextId, node_id := node_id, label := lt.1, text := lt.2,
             is_chosen := false, chosen_at := none }])
        (nextId + 1)

/-- The owner synthesis of `_apply_question_presented`:
`owner = f"agent:{event.agent_name}" if event.agent_name else None` — a falsy
(absent or empty) agent name yields no owner. -/
def qpOwner (event : EventIn) : Option String :=
  match event.agent_name with
  | some a => if a = "" then none else some ("agent:" ++ a)
  | none => none

/-- `_apply_question_presented` in `main.py`.  Requires a non-empty stripped
title; inserts a question node (failing with the store's integrity error when
`node_ref` collides with another node's external tag under the global unique
index `idx_nodes_external_ref`); inserts the normalized choices; then, when a
cleaned parent reference is present and resolves against the post-insert node
table, inserts one `leads_to` edge from the parent to the new node —
an unresolved parent reference is silently ignored. -/
def applyQuestionPresented (db : DB) (now : Nat) (session_id : Nat) (event : EventIn) :
    Except Err (DB × Nat) :=
  let p := event.payload
  let title := pyStrip (p.title.getD "")
  if title = "" then
    .error (.badRequest "question_presented requires payload.title")
  else
    let node_ref := cleanRef p.node_ref
    if (match node_ref with
        | some r => db.nodes.any (fun n => decide (n.external_ref = some r))
        | none => false) then
      .error .integrity
    else
      let context_prompt := cleanRef p.context_prompt
      let rationale := cleanRef p.rationale
      let owner := qpOwner event
      let node := mkQuestionNode db now session_id title rationale owner context_prompt node_ref
      let node_id := db.nextNodeId
      let csn := insertChoicesAux node_id (p.choices.getD []) 0 db.choices db.nextChoiceId
      let nodes₁ := db.nodes ++ [node]
      let parent_ref := cleanRef (pyOr p.parent_node_ref p.from_node_ref)
      let edges₁ := match parent_ref with
        | some pr =>
          match resolveNodeId nodes₁ session_id (some pr) with
          | some parent_id =>
            db.edges ++ [{ id := db.nextEdgeId, from_node_id := parent_id,
                           to_node_id := node_id, created_at := now }]
          | none => db.edges
        | none => db.edges
      .ok ({ db with
              nodes := nodes₁, choices := csn.1, edges := edges₁,
              nextNodeId := node_id + 1, nextChoiceId := csn.2,
              nextEdgeId := (if edges₁.length = db.edges.length then db.nextEdgeId else db.nextEdgeId + 1) },
           node_id)

/-- The row transformer of the first `UPDATE choices` statement of
`_apply_choice_selected`: clear the is-chosen flag and timestamp of every
choice of the node. -/
def clearRow (node_id : Nat) (c : Choice) : Choice :=
  if c.node_id = node_id then { c with is_chosen := false, chosen_at := none } else c

/-- The row transformer of the second `UPDATE choices` statement of
`_apply_choice_selected`: mark the choices of the node with the matching
label chosen at `now`. -/
def markRow (node_id : Nat) (choice_label : String) (now : Nat) (c : Choice) : Choice :=
  if c.node_id = node_id ∧ c.label = choice_label then
    { c with is_chosen := true, chosen_at := some now } else c

/-- The three `choices`-table statements at the heart of
`_apply_choice_selected`: the `UPDATE` clearing `is_chosen`/`chosen_at` on
every choice of the node, the `UPDATE` marking every choice of the node with
the matching label chosen at `now`, and — when that second `UPDATE` matched
zero rows — the `INSERT` of a fresh already-chosen choice whose text is the
given text or the label itself.  Returns the new table and whether a row was
inserted. -/
def selectChoice (cs : List Choice) (node_id : Nat) (choice_label : String)
    (choice_text : Option String) (now : Nat) (nextId : Nat) : List Choice × Bool :=
  let cleared := cs.map (clearRow node_id)
  let marked := cleared.map (markRow node_id choice_label now)
  let rowcount := (cleared.filter (fun c =>
    decide (c.node_id = node_id ∧ c.label = choice_label))).length
  if rowcount = 0 then
    (marked ++
      [{ id := nextId, node_id := node_id, label := choice_label,
         text := choice_text.getD choice_label,
         is_chosen := true, chosen_at := some now }],
     true)
  else
    (marked, false)

/-- `_apply_choice_selected` in `main.py`.  Resolves the target node from
`question_node_ref` / `node_ref` (falling back to the latest question node of
the session when the cleaned reference is absent; 404 when resolution fails);
requires a non-empty stripped `choice_label`; clears the is-chosen flag (and
`chosen_at`) of every choice of the node; marks every choice of the node with
the matching label chosen at `now`; and when that `UPDATE` matched zero rows,
inserts a fresh already-chosen choice whose text is `choice_text` or the label
itself. -/
def applyChoiceSelected (db : DB) (now : Nat) (session_id : Nat) (event : EventIn) :
    Except Err (DB × Nat) :=
  let p := event.payload
  let node_ref := cleanRef (pyOr p.question_node_ref p.node_ref)
  let nid? := match node_ref with
    | some r => resolveNodeId db.nodes session_id (some r)
    | none => latestQuestionNodeId db.nodes session_id
  match nid? with
  | none => .error (.notFound "Target question node not found")
  | some node_id =>
    let choice_label := pyStrip (p.choice_label.getD "")
    if choice_label = "" then
      .error (.badRequest "choice_selected requires payload.choice_label")
    else
      let choice_text := cleanRef p.choice_text
      let sel := selectChoice db.choices node_id choice_label choice_text now db.nextChoiceId
      .ok ({ db with
              choices := sel.1,
              nextChoiceId := if sel.2 then db.nextChoiceId + 1 else db.nextChoiceId },
           node_id)

/-- The rationale merge of `_apply_note_added`:
`merged = f"{existing}\n{note}" if existing else note` — a falsy (absent or
empty) existing rationale is replaced by the note verbatim, otherwise the note
is appended after a newline. -/
def mergeRationale (existing : Option String) (note : String) : String :=
  match existing with
  | some r => if r = "" then note else r ++ "\n" ++ note
  | none => note

/-- `_apply_note_added` in `main.py`.  Resolves the target node (same fallback
rule as `choice_selected`, but reading only `node_ref`; 404 when resolution
fails); requires a non-empty stripped `note`; appends the note to the node's
rationale separated by a newline (a falsy — absent or empty — rationale is
replaced by the note verbatim) and refreshes `updated_at`. -/
def applyNoteAdded (db : DB) (now : Nat) (session_id : Nat) (event : EventIn) :
    Except Err (DB × Nat) :=
  let p := event.payload
  let node_ref := cleanRef p.node_ref
  let nid? := match node_ref with
    | some r => resolveNodeId db.nodes session_id (some r)
    | none => latestQuestionNodeId db.nodes session_id
  match nid? with
  | none => .error (.notFound "Target node not found")
  | some node_id =>
    let note := pyStrip (p.note.getD "")
    if note = "" then
      .error (.badRequest "note_added requires payload.note")
    else
      let existing := (db.nodes.find? (fun n => decide (n.id = node_id))).bind (fun n => n.rationale)
      let merged := mergeRationale existing note
      .ok ({ db with
              nodes := db.nodes.map (fun n =>
                if n.id = node_id then { n with rationale := some merged, updated_at := now } else n) },
           node_id)

/-- The status strings accepted by `_apply_node_status_changed`. -/
def statusOfString (s : String) : Option NodeStatus :=
  if s = "open" then some .open_
  else if s = "in_progress" then some .in_progress
  else if s = "blocked" then some .blocked
  else if s = "done" then some .done
  else none

/-- `_apply_node_status_changed` in `main.py`.  Resolves the target node (same
fallback rule; 404 when resolution fails); requires `status` to be one of the
four valid values; overwrites the node's status and refreshes `updated_at`. -/
def applyNodeStatusChanged (db : DB) (now : Nat) (session_id : Nat) (event : EventIn) :
    Except Err (DB × Nat) :=
  let p := event.payload
  let node_ref := cleanRef p.node_ref
  let nid? := match node_ref with
    | some r => resolveNodeId db.nodes session_id (some r)
    | none => latestQuestionNodeId db.nodes session_id
  match nid? with
  | none => .error (.notFound "Target node not found")
  | some node_id =>
    let new_status := pyStrip (p.status.getD "")
    match statusOfString new_status with
    | none => .error (.badRequest "Invalid status in node_status_changed")
    | some st =>
      .ok ({ db with
              nodes := db.nodes.map (fun n =>
                if n.id = node_id then { n with status := st, updated_at := now } else n) },
           node_id)

/-- `_apply_event` in `main.py`: dispatch on the (closed) event type. -/
def applyEvent (db : DB) (now : Nat) (session_id : Nat) (event : EventIn) :
    Except Err (DB × Nat) :=
  match event.event_type with
  | .question_presented => applyQuestionPresented db now session_id event
  | .choice_selected => applyChoiceSelected db now session_id event
  | .note_added => applyNoteAdded db now session_id event
  | .node_status_changed => applyNodeStatusChanged db now session_id event

/-- `ingest_event` in `main.py`: inside one transaction, resolve or create the
owning session, apply the event, then append the audit record to
`event_log`. -/
def ingestEvent (db : DB) (now : Nat) (event : EventIn) :
    Except Err (DB × EventIngestOut) :=
  let sdb := getOrCreateSessionId db now event.session_external_id
  match applyEvent sdb.2 now sdb.1 event with
  | .error e => .error e
  | .ok (db₂, node_id) =>
    let entry : EventLogEntry :=
      { id := db₂.nextEventLogId, session_id := sdb.1, source := event.source,
        event_type := event.event_type, payload_json := event, received_at := now }
    .ok ({ db₂ with
            eventLog := db₂.eventLog ++ [entry],
            nextEventLogId := db₂.nextEventLogId + 1 },
         { event_log_id := db₂.nextEventLogId, session_id := sdb.1,
           affected_node_id := some node_id })

/-- The observable store after one call of `ingest_event` through `get_conn`
of `db.py`: `get_conn` runs `conn.commit()` only when the body finishes
without an exception, so a failing event leaves the store as it was. -/
def runIngest (db : DB) (now : Nat) (event : EventIn) : DB :=
  match ingestEvent db now event with
  | .ok p => p.1
  | .error _ => db

/-- The graph query result record, `SessionGraphOut` in `main.py`. -/
structure SessionGraphOut where
  session : Session
  nodes : List Node
  edges : List Edge
  choices : List Choice
deriving DecidableEq

/-- `true` when some choice of the list belongs to the node and is chosen. -/
def hasChosenChoice (cs : List Choice) (node_id : Nat) : Bool :=
  cs.any (fun c => decide (c.node_id = node_id ∧ c.is_chosen = true))

/-- Modelled from the spec: `get_session_graph(sessionId, filters)` of §4.3.
The base query (session lookup failing with SessionNotFound, the session's
nodes in ascending id order, edges restricted by a join to those whose source
node belongs to the session, choices restricted by a join to the session's
nodes) is translated from `get_session_graph` in `main.py`; the optional
`status` and `unchosen_only` filters are absent from `src/` (only the tests
call them) and are modelled from the spec's words: `status = S` keeps only
nodes with exactly that status; `unchosen_only = true` keeps exactly the nodes
without any chosen choice (nodes with zero choices included); the filters
combine and narrow only the returned node list. -/
def getSessionGraph (db : DB) (session_id : Nat)
    (status : Option NodeStatus) (unchosen_only : Bool) :
    Except Err SessionGraphOut :=
  match db.sessions.find? (fun s => decide (s.id = session_id)) with
  | none => .error (.notFound "Session not found")
  | some sess =>
    let nodes := db.nodes.filter (fun n => decide (n.session_id = session_id))
    let edges := db.edges.filter (fun e =>
      db.nodes.any (fun n => decide (n.id = e.from_node_id ∧ n.session_id = session_id)))
    let choices := db.choices.filter (fun c =>
      db.nodes.any (fun n => decide (n.id = c.node_id ∧ n.session_id = session_id)))
    let nodes₁ := match status with
      | some st => nodes.filter (fun n => decide (n.status = st))
      | none => nodes
    let nodes₂ :=
      if unchosen_only then nodes₁.filter (fun n => !hasChosenChoice db.choices n.id)
      else nodes₁
    .ok { session := sess, nodes := nodes₂, edges := edges, choices := choices }

/-- Modelled from the spec: the line list of `build_replay_prompt` of §4.4,
absent from `src/` (only the tests call its endpoint).  Fails with
NodeNotFound when no node has the id; fails with ChoiceNotFound when no choice
of the node carries the alternative label; otherwise the lines are the
`Decision point` header, the context prompt when present, the
`Previously chosen path` line — omitted entirely when no choice of the node is
chosen — and the `Alternative to execute now` line. -/
def buildReplayLines (nodes : List Node) (choices : List Choice)
    (node_id : Nat) (alt_choice_label : String) : Except Err (List String) :=
  match nodes.find? (fun n => decide (n.id = node_id)) with
  | none => .error .nodeNotFound
  | some n =>
    let nodeChoices := choices.filter (fun c => decide (c.node_id = node_id))
    match nodeChoices.find? (fun c => decide (c.label = alt_choice_label)) with
    | none => .error .choiceNotFound
    | some alt =>
      let chosen := nodeChoices.find? (fun c => c.is_chosen)
      .ok (["Decision point: " ++ n.title] ++
        (match n.context_prompt with
         | some cp => [cp]
         | none => []) ++
        (match chosen with
         | some ch => ["Previously chosen path: " ++ ch.label ++ ": " ++ ch.text]
         | none => []) ++
        ["Alternative to execute now: " ++ alt.label ++ ": " ++ alt.text])

/-- Modelled from the spec: `build_replay_prompt(nodeId, altChoiceLabel)` of
§4.4 renders the lines of `buildReplayLines` as one newline-separated text. -/
def buildReplayPrompt (nodes : List Node) (choices : List Choice)
    (node_id : Nat) (alt_choice_label : String) : Except Err String :=
  match buildReplayLines nodes choices node_id alt_choice_label with
  | .ok lines => .ok (String.intercalate "\n" lines)
  | .error e => .error e

/-- The choices of a node that are currently marked chosen. -/
def chosenOf (cs : List Choice) (node_id : Nat) : List Choice :=
  cs.filter (fun c => decide (c.node_id = node_id ∧ c.is_chosen = true))

/-- The choices belonging to a node. -/
def choicesOf (cs : List Choice) (node_id : Nat) : List Choice :=
  cs.filter (fun c => decide (c.node_id = node_id))

/-- The `(node_id, label)` key pairs of the choices table are unique — the
invariant enforced by the unique index `idx_choices_node_label` of
`db.py`. -/
def uniqueChoiceKeys : List Choice → Bool
  | [] => true
  | c :: rest =>
    rest.all (fun d => !(decide (d.node_id = c.node_id ∧ d.label = c.label))) &&
      uniqueChoiceKeys rest

/-- The node ids of the nodes table are unique — the invariant enforced by
its integer primary key. -/
def uniqueNodeIds : List Node → Bool
  | [] => true
  | n :: rest => rest.all (fun m => !(decide (m.id = n.id))) && uniqueNodeIds rest

/-- The external tags of the sessions table are unique when present — the
invariant enforced by the unique index `idx_sessions_external_id` of
`db.py`. -/
def uniqueSessionTags : List Session → Bool
  | [] => true
  | s :: rest =>
    rest.all (fun t => !(decide (t.external_id = s.external_id ∧ s.external_id ≠ none))) &&
      uniqueSessionTags rest

theorem filterOfMap (f : α → β) (p : β → Bool) (l : List α) :
    (l.map f).filter p = (l.filter (fun a => p (f a))).map f := by
  induction l with
  | nil => rfl
  | cons a t ih =>
    simp only [List.map_cons, List.filter_cons]
    cases h : p (f a) <;> simp [h, ih]

theorem filterCongrMem {p q : α → Bool} (l : List α)
    (h : ∀ a ∈ l, p a = q a) : l.filter p = l.filter q := by
  induction l with
  | nil => rfl
  | cons a t ih =>
    simp only [List.filter_cons]
    rw [h a (List.mem_cons_self a t), ih (fun b hb => h b (List.mem_cons_of_mem a hb))]

theorem filterFilterEq (p q : α → Bool) (l : List α) :
    (l.filter p).filter q = l.filter (fun a => p a && q a) := by
  induction l with
  | nil => rfl
  | cons a t ih =>
    simp only [List.filter_cons]
    cases hp : p a <;> cases hq : q a <;> simp [List.filter_cons, hp, hq, ih]

theorem length_filter_le_one_of_uniqueKeys (l : List Choice) (nid : Nat) (lbl : String)
    (h : uniqueChoiceKeys l = true) :
    (l.filter (fun c => decide (c.node_id = nid ∧ c.label = lbl))).length ≤ 1 := by
  induction l with
  | nil => simp
  | cons c t ih =>
    rw [uniqueChoiceKeys, Bool.and_eq_true] at h
    obtain ⟨hall, ht⟩ := h
    rw [List.filter_cons]
    by_cases hc : c.node_id = nid ∧ c.label = lbl
    · rw [if_pos (decide_eq_true hc)]
      have hnil : t.filter (fun d => decide (d.node_id = nid ∧ d.label = lbl)) = [] := by
        rw [List.filter_eq_nil_iff]
        intro d hd hdec
        have hx := List.all_eq_true.mp hall d hd
        rw [Bool.not_eq_true', decide_eq_false_iff_not] at hx
        rw [decide_eq_true_eq] at hdec
        exact hx ⟨hdec.1.trans hc.1.symm, hdec.2.trans hc.2.symm⟩
      rw [hnil]
      simp
    · rw [if_neg (by rw [decide_eq_true_eq]; exact hc)]
      exact ih ht

theorem mapEqSelfOfMem (l : List α) (f : α → α) (h : ∀ a ∈ l, f a = a) : l.map f = l := by
  induction l with
  | nil => rfl
  | cons a t ih =>
    rw [List.map_cons, h a (List.mem_cons_self a t),
      ih (fun b hb => h b (List.mem_cons_of_mem a hb))]

theorem clearRow_node_id (nid : Nat) (c : Choice) : (clearRow nid c).node_id = c.node_id := by
  unfold clearRow; split <;> rfl

theorem clearRow_label (nid : Nat) (c : Choice) : (clearRow nid c).label = c.label := by
  unfold clearRow; split <;> rfl

theorem markClear_chosenP (nid : Nat) (lbl : String) (now : Nat) (c : Choice) :
    decide ((markRow nid lbl now (clearRow nid c)).node_id = nid ∧
            (markRow nid lbl now (clearRow nid c)).is_chosen = true) =
    decide (c.node_id = nid ∧ c.label = lbl) := by
  unfold clearRow markRow
  by_cases h1 : c.node_id = nid <;> by_cases h2 : c.label = lbl <;> simp [h1, h2]

theorem markClear_id_of_ne (nid : Nat) (lbl : String) (now : Nat) (c : Choice)
    (h : c.node_id ≠ nid) : markRow nid lbl now (clearRow nid c) = c := by
  unfold clearRow markRow
  simp [h]

theorem markClear_keyP (nid : Nat) (lbl : String) (c : Choice) :
    decide ((clearRow nid c).node_id = nid ∧ (clearRow nid c).label = lbl) =
    decide (c.node_id = nid ∧ c.label = lbl) := by
  rw [clearRow_node_id, clearRow_label]

theorem selectChoice_marked_chosen (cs : List Choice) (nid : Nat) (lbl : String) (now : Nat) :
    chosenOf ((cs.map (clearRow nid)).map (markRow nid lbl now)) nid =
      (cs.filter (fun c => decide (c.node_id = nid ∧ c.label = lbl))).map
        (fun c => markRow nid lbl now (clearRow nid c)) := by
  rw [List.map_map, chosenOf, filterOfMap]
  simp only [Function.comp_apply]
  rw [filterCongrMem cs (fun c _ => markClear_chosenP nid lbl now c)]
  rfl

theorem selectChoice_rowcount (cs : List Choice) (nid : Nat) (lbl : String) :
    ((cs.map (clearRow nid)).filter (fun c => decide (c.node_id = nid ∧ c.label = lbl))).length =
      (cs.filter (fun c => decide (c.node_id = nid ∧ c.label = lbl))).length := by
  rw [filterOfMap, filterCongrMem cs (fun c _ => markClear_keyP nid lbl c), List.length_map]

theorem markClear_otherP (nid : Nat) (lbl : String) (now : Nat) (m : Nat) (hm : m ≠ nid)
    (c : Choice) :
    decide ((markRow nid lbl now (clearRow nid c)).node_id = m ∧
            (markRow nid lbl now (clearRow nid c)).is_chosen = true) =
    decide (c.node_id = m ∧ c.is_chosen = true) := by
  rw [decide_eq_decide]
  by_cases h1 : c.node_id = nid
  · unfold clearRow markRow
    by_cases h2 : c.label = lbl <;> simp [h1, h2, Ne.symm hm]
  · rw [markClear_id_of_ne nid lbl now c h1]

theorem chosenOf_other_of_select (cs : List Choice) (nid : Nat) (lbl : String) (now : Nat)
    (m : Nat) (hm : m ≠ nid) :
    chosenOf ((cs.map (clearRow nid)).map (markRow nid lbl now)) m = chosenOf cs m := by
  rw [List.map_map, chosenOf, filterOfMap]
  simp only [Function.comp_apply]
  rw [filterCongrMem cs (fun c _ => markClear_otherP nid lbl now m hm c)]
  rw [chosenOf]
  apply mapEqSelfOfMem
  intro a ha
  have hmem := List.mem_filter.mp ha
  have hprop := of_decide_eq_true hmem.2
  have hne : a.node_id ≠ nid := by rw [hprop.1]; exact hm
  rw [Function.comp_apply, markClear_id_of_ne nid lbl now a hne]

theorem selectChoice_spec (cs : List Choice) (nid : Nat) (lbl : String) (txt : Option String)
    (now nextId : Nat) (huniq : uniqueChoiceKeys cs = true) :
    (chosenOf (selectChoice cs nid lbl txt now nextId).1 nid).length = 1 ∧
    (∀ c ∈ (selectChoice cs nid lbl txt now nextId).1, c.node_id = nid → c.is_chosen = true →
       c.label = lbl ∧ c.chosen_at = some now) ∧
    (∀ m, m ≠ nid → chosenOf (selectChoice cs nid lbl txt now nextId).1 m = chosenOf cs m) ∧
    (cs.filter (fun c => decide (c.node_id = nid ∧ c.label = lbl)) = [] →
       ({ id := nextId, node_id := nid, label := lbl, text := txt.getD lbl,
          is_chosen := true, chosen_at := some now } : Choice) ∈
         (selectChoice cs nid lbl txt now nextId).1) := by
  have hrow := selectChoice_rowcount cs nid lbl
  have hchosen := selectChoice_marked_chosen cs nid lbl now
  have hle := length_filter_le_one_of_uniqueKeys cs nid lbl huniq
  have hmarkmem : ∀ c ∈ (cs.map (clearRow nid)).map (markRow nid lbl now),
      c.node_id = nid → c.is_chosen = true → c.label = lbl ∧ c.chosen_at = some now := by
    intro c hc hcn hcc
    obtain ⟨c₁, hc₁, rfl⟩ := List.mem_map.mp hc
    obtain ⟨c₀, hc₀, rfl⟩ := List.mem_map.mp hc₁
    by_cases h1 : c₀.node_id = nid
    · by_cases h2 : c₀.label = lbl
      · constructor
        · unfold markRow clearRow
          simp [h1, h2]
        · unfold markRow clearRow
          simp [h1, h2]
      · exfalso
        unfold markRow clearRow at hcc
        simp [h1, h2] at hcc
    · exfalso
      rw [markClear_id_of_ne nid lbl now c₀ h1] at hcn
      exact h1 hcn
  unfold selectChoice
  by_cases hzero : ((cs.map (clearRow nid)).filter
      (fun c => decide (c.node_id = nid ∧ c.label = lbl))).length = 0
  · have hcs0 : (cs.filter (fun c => decide (c.node_id = nid ∧ c.label = lbl))).length = 0 := by
      rw [← hrow]; exact hzero
    have hcsnil : cs.filter (fun c => decide (c.node_id = nid ∧ c.label = lbl)) = [] :=
      List.length_eq_zero.mp hcs0
    rw [if_pos hzero]
    dsimp only
    refine ⟨?_, ?_, ?_, ?_⟩
    · simp only [chosenOf] at hchosen ⊢
      rw [List.filter_append, hchosen, hcsnil]
      simp
    · intro c hc hcn hcc
      rcases List.mem_append.mp hc with hmk | hnew
      · exact hmarkmem c hmk hcn hcc
      · rw [List.mem_singleton.mp hnew]
        exact ⟨rfl, rfl⟩
    · intro m hm
      have hother := chosenOf_other_of_select cs nid lbl now m hm
      simp only [chosenOf] at hother ⊢
      rw [List.filter_append, hother]
      simp [Ne.symm hm]
    · intro _
      exact List.mem_append_right _ (List.mem_cons_self _ _)
  · have hpos : (cs.filter (fun c => decide (c.node_id = nid ∧ c.label = lbl))).length ≠ 0 := by
      rw [← hrow]; exact hzero
    have hone : (cs.filter (fun c => decide (c.node_id = nid ∧ c.label = lbl))).length = 1 :=
      Nat.le_antisymm hle (Nat.one_le_iff_ne_zero.mpr hpos)
    rw [if_neg hzero]
    dsimp only
    refine ⟨?_, ?_, ?_, ?_⟩
    · rw [hchosen, List.length_map]
      exact hone
    · exact hmarkmem
    · intro m hm
      exact chosenOf_other_of_select cs nid lbl now m hm
    · intro hnil
      exact absurd (by rw [hnil]; rfl) hpos

theorem applyChoiceSelected_ok (db : DB) (now sid : Nat) (ev : EventIn) (db' : DB) (nid : Nat)
    (hok : applyChoiceSelected db now sid ev = .ok (db', nid)) :
    pyStrip (ev.payload.choice_label.getD "") ≠ "" ∧
    db'.choices = (selectChoice db.choices nid (pyStrip (ev.payload.choice_label.getD ""))
      (cleanRef ev.payload.choice_text) now db.nextChoiceId).1 := by
  unfold applyChoiceSelected at hok
  dsimp only at hok
  split at hok
  · exact absurd hok (by simp)
  · split at hok
    · exact absurd hok (by simp)
    · rename_i hlbl
      rw [Except.ok.injEq, Prod.mk.injEq] at hok
      obtain ⟨hdb, hnid⟩ := hok
      subst hnid
      constructor
      · exact hlbl
      · rw [← hdb]

/-- C1: processing `choice_selected` first clears the is-chosen flag on every
choice of the resolved node and then marks the choice with the given non-empty
label chosen with a fresh timestamp, inserting an already-chosen choice (text
= the provided `choice_text`, or the label itself) when no choice with that
label exists; consequently, under the store's unique `(node_id, label)` index,
a successful `choice_selected` always leaves exactly one chosen choice on the
resolved node — carrying the selected label — and leaves the chosen choices of
every other node untouched, so selecting `B` and later `A` leaves exactly the
single chosen choice labeled `A`. -/
theorem choiceSelected_last_selection_wins (db : DB) (now sid : Nat) (ev : EventIn)
    (db' : DB) (nid : Nat)
    (huniq : uniqueChoiceKeys db.choices = true)
    (hok : applyChoiceSelected db now sid ev = .ok (db', nid)) :
    pyStrip (ev.payload.choice_label.getD "") ≠ "" ∧
    (chosenOf db'.choices nid).length = 1 ∧
    (∀ c ∈ db'.choices, c.node_id = nid → c.is_chosen = true →
       c.label = pyStrip (ev.payload.choice_label.getD "") ∧ c.chosen_at = some now) ∧
    (∀ m, m ≠ nid → chosenOf db'.choices m = chosenOf db.choices m) ∧
    (db.choices.filter (fun c => decide (c.node_id = nid ∧
        c.label = pyStrip (ev.payload.choice_label.getD ""))) = [] →
      ({ id := db.nextChoiceId, node_id := nid,
         label := pyStrip (ev.payload.choice_label.getD ""),
         text := (cleanRef ev.payload.choice_text).getD (pyStrip (ev.payload.choice_label.getD "")),
         is_chosen := true, chosen_at := some now } : Choice) ∈ db'.choices) := by
  obtain ⟨hlbl, hcs⟩ := applyChoiceSelected_ok db now sid ev db' nid hok
  have h := selectChoice_spec db.choices nid (pyStrip (ev.payload.choice_label.getD ""))
    (cleanRef ev.payload.choice_text) now db.nextChoiceId huniq
  rw [hcs]
  exact ⟨hlbl, h.1, h.2.1, h.2.2.1, h.2.2.2⟩

/-- A concrete store for the witnesses: one session, one question node with
external tag `q-1`, and two choices `A`/`B` of which `B` is currently
chosen. -/
def dbSelect : DB :=
  { sessions := [{ id := 1, external_id := some "s-1", name := "S",
                   started_at := some 1, ended_at := none, created_at := 1 }],
    nodes := [{ id := 1, session_id := 1, external_ref := some "q-1", type := .question,
                title := "T", status := .open_, rationale := none, owner := none,
                priority := none, context_prompt := none, created_at := 1, updated_at := 1 }],
    choices := [{ id := 1, node_id := 1, label := "A", text := "x",
                  is_chosen := false, chosen_at := none },
                { id := 2, node_id := 1, label := "B", text := "y",
                  is_chosen := true, chosen_at := some 2 }],
    edges := [], eventLog := [],
    nextSessionId := 2, nextNodeId := 2, nextChoiceId := 3,
    nextEdgeId := 1, nextEventLogId := 1 }

/-- A concrete `choice_selected` event picking label `A` on node `q-1`. -/
def evSelectA : EventIn :=
  { event_type := .choice_selected, session_external_id := "s-1",
    payload := { question_node_ref := some "q-1", choice_label := some "A" } }

/-- The store after `evSelectA`: `B` is cleared and `A` is chosen at time 7. -/
def dbSelectA : DB :=
  { dbSelect with
    choices := [{ id := 1, node_id := 1, label := "A", text := "x",
                  is_chosen := true, chosen_at := some 7 },
                { id := 2, node_id := 1, label := "B", text := "y",
                  is_chosen := false, chosen_at := none }] }

theorem choiceSelected_last_selection_wins_witness :
    (chosenOf dbSelectA.choices 1).length = 1 :=
  (choiceSelected_last_selection_wins dbSelect 7 1 evSelectA dbSelectA 1
    (by decide) (by decide)).2.1

theorem isDigitString_ne_empty (s : String) (h : isDigitString s = true) : s ≠ "" := by
  intro he
  subst he
  exact absurd h (by decide)

theorem foldlMax_mem (a : Nat) (l : List Nat) : l.foldl max a = a ∨ l.foldl max a ∈ l := by
  induction l generalizing a with
  | nil => left; rfl
  | cons x t ih =>
    rw [List.foldl_cons]
    rcases ih (max a x) with h | h
    · rcases max_choice a x with hm | hm
      · left; rw [h, hm]
      · right; rw [h, hm]; exact List.mem_cons_self x t
    · right; exact List.mem_cons_of_mem x h

theorem le_foldlMax (a : Nat) (l : List Nat) :
    a ≤ l.foldl max a ∧ ∀ x ∈ l, x ≤ l.foldl max a := by
  induction l generalizing a with
  | nil => exact ⟨Nat.le_refl a, by intro x hx; cases hx⟩
  | cons y t ih =>
    rw [List.foldl_cons]
    obtain ⟨h1, h2⟩ := ih (max a y)
    refine ⟨Nat.le_trans (Nat.le_max_left a y) h1, ?_⟩
    intro x hx
    rcases List.mem_cons.mp hx with rfl | hx
    · exact Nat.le_trans (Nat.le_max_right a x) h1
    · exact h2 x hx

theorem latestQuestion_spec (nodes : List Node) (sid nid : Nat)
    (h : latestQuestionNodeId nodes sid = some nid) :
    ∃ n ∈ nodes, n.id = nid ∧ n.session_id = sid ∧ n.type = .question ∧
      ∀ m ∈ nodes, m.session_id = sid → m.type = .question → m.id ≤ nid := by
  unfold latestQuestionNodeId at h
  rcases hq : nodes.filter (fun n => decide (n.session_id = sid ∧ n.type = .question)) with _ | ⟨n, rest⟩
  · rw [hq] at h
    exact absurd h (by simp)
  · rw [hq] at h
    simp only [Option.some.injEq] at h
    have hub := le_foldlMax n.id (rest.map (·.id))
    have hqmem : ∀ m, m ∈ n :: rest → m.session_id = sid ∧ m.type = .question ∧ m ∈ nodes := by
      intro m hm
      rw [← hq] at hm
      have := List.mem_filter.mp hm
      have hp := of_decide_eq_true this.2
      exact ⟨hp.1, hp.2, this.1⟩
    have hin : nid = n.id ∨ nid ∈ rest.map (·.id) := by
      rw [← h]
      exact foldlMax_mem n.id (rest.map (·.id))
    have hexists : ∃ q, q ∈ n :: rest ∧ q.id = nid := by
      rcases hin with h1 | h1
      · exact ⟨n, List.mem_cons_self n rest, h1.symm⟩
      · obtain ⟨q, hq1, hq2⟩ := List.mem_map.mp h1
        exact ⟨q, List.mem_cons_of_mem n hq1, hq2⟩
    obtain ⟨q, hqm, hqid⟩ := hexists
    obtain ⟨hs, ht, hmem⟩ := hqmem q hqm
    refine ⟨q, hmem, hqid, hs, ht, ?_⟩
    intro m hm hms hmt
    have hmq : m ∈ n :: rest := by
      rw [← hq]
      exact List.mem_filter.mpr ⟨hm, decide_eq_true ⟨hms, hmt⟩⟩
    rcases List.mem_cons.mp hmq with rfl | hmr
    · rw [← h]; exact hub.1
    · rw [← h]; exact hub.2 m.id (List.mem_map.mpr ⟨m, hmr, rfl⟩)

theorem resolve_digit_sound (nodes : List Node) (sid : Nat) (ref : String) (nid : Nat)
    (hd : isDigitString ref = true)
    (h : resolveNodeId nodes sid (some ref) = some nid) :
    ∃ n ∈ nodes, n.id = nid ∧ n.session_id = sid ∧ nid = refToNat ref := by
  unfold resolveNodeId at h
  dsimp only at h
  rw [if_neg (isDigitString_ne_empty ref hd), if_pos hd] at h
  obtain ⟨n, hfind, hid⟩ := Option.map_eq_some'.mp h
  have hp := List.find?_some hfind
  simp only [decide_eq_true_eq] at hp
  exact ⟨n, List.mem_of_find?_eq_some hfind, hid, hp.2, by rw [← hid, hp.1]⟩

theorem resolve_digit_complete (nodes : List Node) (sid : Nat) (ref : String)
    (hd : isDigitString ref = true)
    (hex : ∃ n ∈ nodes, n.id = refToNat ref ∧ n.session_id = sid) :
    resolveNodeId nodes sid (some ref) = some (refToNat ref) := by
  unfold resolveNodeId
  dsimp only
  rw [if_neg (isDigitString_ne_empty ref hd), if_pos hd]
  rcases hfind : nodes.find? (fun n => decide (n.id = refToNat ref ∧ n.session_id = sid)) with _ | n
  · obtain ⟨n, hmem, hn1, hn2⟩ := hex
    have := List.find?_eq_none.mp hfind n hmem
    exact absurd (decide_eq_true ⟨hn1, hn2⟩) this
  · have hp := List.find?_some hfind
    simp only [decide_eq_true_eq] at hp
    rw [hfind, Option.map_some', hp.1]

theorem resolve_tag_sound (nodes : List Node) (sid : Nat) (ref : String) (nid : Nat)
    (hd : isDigitString ref = false) (hne : ref ≠ "")
    (h : resolveNodeId nodes sid (some ref) = some nid) :
    ∃ n ∈ nodes, n.id = nid ∧ n.session_id = sid ∧ n.external_ref = some ref := by
  unfold resolveNodeId at h
  dsimp only at h
  rw [if_neg hne, hd] at h
  simp only [Bool.false_eq_true, if_false] at h
  obtain ⟨n, hfind, hid⟩ := Option.map_eq_some'.mp h
  have hp := List.find?_some hfind
  simp only [decide_eq_true_eq] at hp
  exact ⟨n, List.mem_of_find?_eq_some hfind, hid, hp.2, hp.1⟩

theorem latestQuestion_none (nodes : List Node) (sid : Nat)
    (h : ∀ n ∈ nodes, ¬(n.session_id = sid ∧ n.type = .question)) :
    latestQuestionNodeId nodes sid = none := by
  unfold latestQuestionNodeId
  have hnil : nodes.filter (fun n => decide (n.session_id = sid ∧ n.type = .question)) = [] :=
    List.filter_eq_nil_iff.mpr (fun n hn hd => h n hn (of_decide_eq_true hd))
  rw [hnil]

theorem choiceSelected_fallback_fail (db : DB) (now sid : Nat) (ev : EventIn)
    (hre : cleanRef (pyOr ev.payload.question_node_ref ev.payload.node_ref) = none)
    (hnoq : latestQuestionNodeId db.nodes sid = none) :
    applyChoiceSelected db now sid ev = .error (.notFound "Target question node not found") := by
  unfold applyChoiceSelected
  dsimp only
  rw [hre, hnoq]

theorem noteAdded_fallback_fail (db : DB) (now sid : Nat) (ev : EventIn)
    (hre : cleanRef ev.payload.node_ref = none)
    (hnoq : latestQuestionNodeId db.nodes sid = none) :
    applyNoteAdded db now sid ev = .error (.notFound "Target node not found") := by
  unfold applyNoteAdded
  dsimp only
  rw [hre, hnoq]

theorem statusChanged_fallback_fail (db : DB) (now sid : Nat) (ev : EventIn)
    (hre : cleanRef ev.payload.node_ref = none)
    (hnoq : latestQuestionNodeId db.nodes sid = none) :
    applyNodeStatusChanged db now sid ev = .error (.notFound "Target node not found") := by
  unfold applyNodeStatusChanged
  dsimp only
  rw [hre, hnoq]

theorem choiceSelected_fallback_target (db : DB) (now sid : Nat) (ev : EventIn)
    (p : DB × Nat)
    (hre : cleanRef (pyOr ev.payload.question_node_ref ev.payload.node_ref) = none)
    (hok : applyChoiceSelected db now sid ev = .ok p) :
    latestQuestionNodeId db.nodes sid = some p.2 := by
  unfold applyChoiceSelected at hok
  dsimp only at hok
  rw [hre] at hok
  dsimp only at hok
  rcases hl : latestQuestionNodeId db.nodes sid with _ | k
  · rw [hl] at hok
    dsimp only at hok
    exact absurd hok (by simp)
  · rw [hl] at hok
    dsimp only at hok
    split at hok
    · exact absurd hok (by simp)
    · rw [Except.ok.injEq] at hok
      subst hok
      rfl

/-- C2: reference resolution is session-scoped in both of its modes — a
base-10 integer reference is looked up as an internal node id restricted to
the session (both soundly and completely, so it can never match a node of
another session), any other non-empty reference is looked up as an external
reference tag restricted to the session — and when the cleaned reference is
empty or absent, `choice_selected` / `note_added` / `node_status_changed`
fall back to the most recently created question node of the session
(maximal id among the session's question nodes), failing with a 404
not-found error when the session has no question node. -/
theorem resolver_session_scoped_and_fallback
    (nodes : List Node) (sid : Nat) (ref : String)
    (db : DB) (now sid₂ : Nat) (evc evn evs : EventIn) :
    (isDigitString ref = true → ∀ nid, resolveNodeId nodes sid (some ref) = some nid →
       ∃ n ∈ nodes, n.id = nid ∧ n.session_id = sid ∧ nid = refToNat ref) ∧
    (isDigitString ref = true → (∃ n ∈ nodes, n.id = refToNat ref ∧ n.session_id = sid) →
       resolveNodeId nodes sid (some ref) = some (refToNat ref)) ∧
    (isDigitString ref = false → ref ≠ "" →
       ∀ nid, resolveNodeId nodes sid (some ref) = some nid →
         ∃ n ∈ nodes, n.id = nid ∧ n.session_id = sid ∧ n.external_ref = some ref) ∧
    (∀ nid, latestQuestionNodeId nodes sid = some nid →
       ∃ n ∈ nodes, n.id = nid ∧ n.session_id = sid ∧ n.type = .question ∧
         ∀ m ∈ nodes, m.session_id = sid → m.type = .question → m.id ≤ nid) ∧
    (cleanRef (pyOr evc.payload.question_node_ref evc.payload.node_ref) = none →
     (∀ n ∈ db.nodes, ¬(n.session_id = sid₂ ∧ n.type = .question)) →
       applyChoiceSelected db now sid₂ evc =
         .error (.notFound "Target question node not found")) ∧
    (cleanRef evn.payload.node_ref = none →
     (∀ n ∈ db.nodes, ¬(n.session_id = sid₂ ∧ n.type = .question)) →
       applyNoteAdded db now sid₂ evn = .error (.notFound "Target node not found")) ∧
    (cleanRef evs.payload.node_ref = none →
     (∀ n ∈ db.nodes, ¬(n.session_id = sid₂ ∧ n.type = .question)) →
       applyNodeStatusChanged db now sid₂ evs =
         .error (.notFound "Target node not found")) ∧
    (cleanRef (pyOr evc.payload.question_node_ref evc.payload.node_ref) = none →
     ∀ p, applyChoiceSelected db now sid₂ evc = .ok p →
       latestQuestionNodeId db.nodes sid₂ = some p.2) := by
  refine ⟨?_, ?_, ?_, ?_, ?_, ?_, ?_, ?_⟩
  · intro hd nid h
    exact resolve_digit_sound nodes sid ref nid hd h
  · intro hd hex
    exact resolve_digit_complete nodes sid ref hd hex
  · intro hd hne nid h
    exact resolve_tag_sound nodes sid ref nid hd hne h
  · intro nid h
    exact latestQuestion_spec nodes sid nid h
  · intro hre hnoq
    exact choiceSelected_fallback_fail db now sid₂ evc hre (latestQuestion_none db.nodes sid₂ hnoq)
  · intro hre hnoq
    exact noteAdded_fallback_fail db now sid₂ evn hre (latestQuestion_none db.nodes sid₂ hnoq)
  · intro hre hnoq
    exact statusChanged_fallback_fail db now sid₂ evs hre (latestQuestion_none db.nodes sid₂ hnoq)
  · intro hre p hok
    exact choiceSelected_fallback_target db now sid₂ evc p hre hok

/-- An empty store, and refless events, for the fallback witnesses. -/
def dbEmpty : DB := {}

/-- A `choice_selected` event with no node reference. -/
def evSelNoRef : EventIn :=
  { event_type := .choice_selected, session_external_id := "s-9",
    payload := { choice_label := some "A" } }

/-- A `note_added` event with no node reference. -/
def evNoteNoRef : EventIn :=
  { event_type := .note_added, session_external_id := "s-9",
    payload := { note := some "n" } }

/-- A `node_status_changed` event with no node reference. -/
def evStatusNoRef : EventIn :=
  { event_type := .node_status_changed, session_external_id := "s-9",
    payload := { status := some "done" } }

theorem resolver_session_scoped_and_fallback_witness :
    applyChoiceSelected dbEmpty 3 1 evSelNoRef =
      .error (.notFound "Target question node not found") :=
  (resolver_session_scoped_and_fallback dbSelect.nodes 1 "1" dbEmpty 3 1
      evSelNoRef evNoteNoRef evStatusNoRef).2.2.2.2.1 (by decide) (by decide)

/-- C10: for a node reference consisting only of decimal digits, resolution
takes the internal-id branch and never consults the external-tag lookup: it
returns a node only when the digits' numeric value equals the internal id of
some node of the session, and it returns `none` whenever no node of the
session has that internal id — even when some node of the session carries
exactly that digit string as its external reference tag. -/
theorem digit_ref_shadows_external_tag
    (nodes : List Node) (sid : Nat) (ref : String)
    (hd : isDigitString ref = true) :
    ((∀ n ∈ nodes, ¬(n.id = refToNat ref ∧ n.session_id = sid)) →
       resolveNodeId nodes sid (some ref) = none) ∧
    (∀ nid, resolveNodeId nodes sid (some ref) = some nid →
       nid = refToNat ref ∧ ∃ n ∈ nodes, n.id = nid ∧ n.session_id = sid) := by
  constructor
  · intro h
    unfold resolveNodeId
    dsimp only
    rw [if_neg (isDigitString_ne_empty ref hd), if_pos hd]
    have hnone : nodes.find? (fun n => decide (n.id = refToNat ref ∧ n.session_id = sid)) = none :=
      List.find?_eq_none.mpr (fun n hn hdec => h n hn (of_decide_eq_true hdec))
    rw [hnone, Option.map_none']
  · intro nid h
    obtain ⟨n, hmem, hid, hsid, hval⟩ := resolve_digit_sound nodes sid ref nid hd h
    exact ⟨hval, n, hmem, hid, hsid⟩

/-- A store whose single node carries the digit-only external tag `7` but has
internal id 3: the tag is indexed by the store yet unreachable through
resolution. -/
def dbShadow : DB :=
  { sessions := [{ id := 1, external_id := some "s-7", name := "S",
                   started_at := some 1, ended_at := none, created_at := 1 }],
    nodes := [{ id := 3, session_id := 1, external_ref := some "7", type := .question,
                title := "T", status := .open_, rationale := none, owner := none,
                priority := none, context_prompt := none, created_at := 1, updated_at := 1 }],
    choices := [], edges := [], eventLog := [],
    nextSessionId := 2, nextNodeId := 4, nextChoiceId := 1,
    nextEdgeId := 1, nextEventLogId := 1 }

theorem digit_ref_shadows_external_tag_witness :
    resolveNodeId dbShadow.nodes 1 (some "7") = none :=
  (digit_ref_shadows_external_tag dbShadow.nodes 1 "7" (by decide)).1 (by decide)

theorem uniqueNodeIds_eq (l : List Node) (h : uniqueNodeIds l = true)
    (m n : Node) (hm : m ∈ l) (hn : n ∈ l) (hid : m.id = n.id) : m = n := by
  induction l with
  | nil => cases hm
  | cons a t ih =>
    rw [uniqueNodeIds, Bool.and_eq_true] at h
    obtain ⟨hall, ht⟩ := h
    rcases List.mem_cons.mp hm with rfl | hmt
    · rcases List.mem_cons.mp hn with rfl | hnt
      · rfl
      · have := List.all_eq_true.mp hall n hnt
        rw [Bool.not_eq_true', decide_eq_false_iff_not] at this
        exact absurd hid.symm this
    · rcases List.mem_cons.mp hn with rfl | hnt
      · have := List.all_eq_true.mp hall m hmt
        rw [Bool.not_eq_true', decide_eq_false_iff_not] at this
        exact absurd hid this
      · exact ih ht hmt hnt

theorem stringAppendNewline_ne_empty (r note : String) : r ++ "\n" ++ note ≠ "" := by
  intro h
  have hd := congrArg String.data h
  rw [String.data_append, String.data_append] at hd
  simp at hd

theorem applyNoteAdded_ok (db : DB) (now sid : Nat) (ev : EventIn) (db' : DB) (nid : Nat)
    (hok : applyNoteAdded db now sid ev = .ok (db', nid)) :
    pyStrip (ev.payload.note.getD "") ≠ "" ∧
    db'.nodes = db.nodes.map (fun n =>
      if n.id = nid then
        { n with
          rationale := some (mergeRationale
            ((db.nodes.find? (fun m => decide (m.id = nid))).bind (fun m => m.rationale))
            (pyStrip (ev.payload.note.getD ""))),
          updated_at := now }
      else n) := by
  unfold applyNoteAdded at hok
  dsimp only at hok
  split at hok
  · exact absurd hok (by simp)
  · split at hok
    · exact absurd hok (by simp)
    · rename_i hnote
      rw [Except.ok.injEq, Prod.mk.injEq] at hok
      obtain ⟨hdb, hnid⟩ := hok
      subst hnid
      exact ⟨hnote, by rw [← hdb]⟩

/-- C5: a successful `note_added` carries a non-empty stripped note; on the
resolved node an absent rationale becomes the note verbatim and a non-empty
rationale `R` becomes `R ++ "\n" ++ note`, with the modification timestamp
refreshed; after the event the node's rationale is always non-empty, so
re-applying the same event appends the note again (duplicate notes accumulate
— the operation is not idempotent in effect); and a `note_added` whose
stripped note is empty fails with a 400 validation error whenever its target
resolves. -/
theorem noteAdded_appends_rationale
    (db : DB) (now sid : Nat) (ev evm : EventIn) (db' : DB) (nid : Nat)
    (huniq : uniqueNodeIds db.nodes = true)
    (hok : applyNoteAdded db now sid ev = .ok (db', nid)) :
    pyStrip (ev.payload.note.getD "") ≠ "" ∧
    (∀ n ∈ db.nodes, n.id = nid → n.rationale = none →
       ({ n with
           rationale := some (pyStrip (ev.payload.note.getD "")),
           updated_at := now } : Node) ∈ db'.nodes) ∧
    (∀ n ∈ db.nodes, n.id = nid → ∀ r, n.rationale = some r → r ≠ "" →
       ({ n with
           rationale := some (r ++ "\n" ++ pyStrip (ev.payload.note.getD "")),
           updated_at := now } : Node) ∈ db'.nodes) ∧
    (∀ n' ∈ db'.nodes, n'.id = nid → ∃ r, n'.rationale = some r ∧ r ≠ "") ∧
    (pyStrip (evm.payload.note.getD "") = "" →
     ∀ k, (match cleanRef evm.payload.node_ref with
           | some r => resolveNodeId db.nodes sid (some r)
           | none => latestQuestionNodeId db.nodes sid) = some k →
       applyNoteAdded db now sid evm =
         .error (.badRequest "note_added requires payload.note")) := by
  obtain ⟨hnote, hnodes⟩ := applyNoteAdded_ok db now sid ev db' nid hok
  have hfind : ∀ n ∈ db.nodes, n.id = nid →
      (db.nodes.find? (fun m => decide (m.id = nid))).bind (fun m => m.rationale) =
        n.rationale := by
    intro n hn hnid
    rcases hf : db.nodes.find? (fun m => decide (m.id = nid)) with _ | m
    · have := List.find?_eq_none.mp hf n hn
      exact absurd (decide_eq_true hnid) this
    · have hm := List.find?_some hf
      rw [decide_eq_true_eq] at hm
      have heq := uniqueNodeIds_eq db.nodes huniq m n (List.mem_of_find?_eq_some hf) hn
        (hm.trans hnid.symm)
      rw [hf, heq]
      rfl
  refine ⟨hnote, ?_, ?_, ?_, ?_⟩
  · intro n hn hnid hrat
    rw [hnodes]
    refine List.mem_map.mpr ⟨n, hn, ?_⟩
    dsimp only
    rw [if_pos hnid, hfind n hn hnid, hrat]
    rfl
  · intro n hn hnid r hrat hr
    rw [hnodes]
    refine List.mem_map.mpr ⟨n, hn, ?_⟩
    dsimp only
    rw [if_pos hnid, hfind n hn hnid, hrat]
    simp only [mergeRationale]
    rw [if_neg hr]
  · intro n' hn' hid
    rw [hnodes] at hn'
    obtain ⟨n₀, hn₀, rfl⟩ := List.mem_map.mp hn'
    by_cases h0 : n₀.id = nid
    · refine ⟨mergeRationale
        ((db.nodes.find? (fun m => decide (m.id = nid))).bind (fun m => m.rationale))
        (pyStrip (ev.payload.note.getD "")), ?_, ?_⟩
      · dsimp only
        rw [if_pos h0]
      · rcases hex : (db.nodes.find? (fun m => decide (m.id = nid))).bind
            (fun m => m.rationale) with _ | r
        · rw [hex]
          exact hnote
        · rw [hex]
          simp only [mergeRationale]
          by_cases hr : r = ""
          · rw [if_pos hr]
            exact hnote
          · rw [if_neg hr]
            exact stringAppendNewline_ne_empty r _
    · exfalso
      rw [if_neg h0] at hid
      exact h0 hid
  · intro hempty k hres
    unfold applyNoteAdded
    dsimp only
    rw [hres]
    dsimp only
    rw [if_pos hempty]

/-- A `note_added` event targeting node `q-1` with note `R2`. -/
def evNoteQ1 : EventIn :=
  { event_type := .note_added, session_external_id := "s-1",
    payload := { node_ref := some "q-1", note := some "R2" } }

/-- The store after `evNoteQ1` on `dbSelect`: the node's rationale is `R2`
and its modification timestamp is 9. -/
def dbNoted : DB :=
  { dbSelect with
    nodes := [{ id := 1, session_id := 1, external_ref := some "q-1", type := .question,
                title := "T", status := .open_, rationale := some "R2", owner := none,
                priority := none, context_prompt := none, created_at := 1, updated_at := 9 }] }

theorem noteAdded_appends_rationale_witness :
    ({ id := 1, session_id := 1, external_ref := some "q-1", type := .question,
       title := "T", status := .open_, rationale := some "R2", owner := none,
       priority := none, context_prompt := none, created_at := 1,
       updated_at := 9 } : Node) ∈ dbNoted.nodes :=
  (noteAdded_appends_rationale dbSelect 9 1 evNoteQ1 evNoteQ1 dbNoted 1
      (by decide) (by decide)).2.1
    { id := 1, session_id := 1, external_ref := some "q-1", type := .question,
      title := "T", status := .open_, rationale := none, owner := none,
      priority := none, context_prompt := none, created_at := 1, updated_at := 1 }
    (by decide) rfl rfl

theorem applyQuestionPresented_ok (db : DB) (now sid : Nat) (ev : EventIn)
    (db' : DB) (nid : Nat)
    (hok : applyQuestionPresented db now sid ev = .ok (db', nid)) :
    nid = db.nextNodeId ∧
    db'.nodes = db.nodes ++ [mkQuestionNode db now sid (pyStrip (ev.payload.title.getD ""))
      (cleanRef ev.payload.rationale) (qpOwner ev) (cleanRef ev.payload.context_prompt)
      (cleanRef ev.payload.node_ref)] ∧
    db'.choices = (insertChoicesAux db.nextNodeId (ev.payload.choices.getD []) 0
      db.choices db.nextChoiceId).1 ∧
    db'.edges = (match cleanRef (pyOr ev.payload.parent_node_ref ev.payload.from_node_ref) with
      | some pr =>
        (match resolveNodeId (db.nodes ++ [mkQuestionNode db now sid
            (pyStrip (ev.payload.title.getD "")) (cleanRef ev.payload.rationale) (qpOwner ev)
            (cleanRef ev.payload.context_prompt) (cleanRef ev.payload.node_ref)]) sid (some pr) with
         | some pid => db.edges ++
             [{ id := db.nextEdgeId, from_node_id := pid,
                to_node_id := db.nextNodeId, created_at := now }]
         | none => db.edges)
      | none => db.edges) ∧
    db'.eventLog = db.eventLog := by
  unfold applyQuestionPresented at hok
  dsimp only at hok
  split at hok
  · exact absurd hok (by simp)
  · split at hok
    · exact absurd hok (by simp)
    · rw [Except.ok.injEq, Prod.mk.injEq] at hok
      obtain ⟨hdb, hnid⟩ := hok
      subst hnid
      refine ⟨rfl, ?_, ?_, ?_, ?_⟩ <;> rw [← hdb]

theorem find?_append_of_none (l₁ l₂ : List α) (p : α → Bool) (h : l₁.find? p = none) :
    (l₁ ++ l₂).find? p = l₂.find? p := by
  induction l₁ with
  | nil => rfl
  | cons a t ih =>
    cases hp : p a
    · rw [List.find?_cons_of_neg t (by simp [hp])] at h
      rw [List.cons_append, List.find?_cons_of_neg _ (by simp [hp])]
      exact ih h
    · rw [List.find?_cons_of_pos t hp] at h
      cases h

/-- C6: session resolution from the external tag is idempotent: a first call
with a tag unseen among the sessions creates exactly one session carrying
that tag (appending it to the table and returning its fresh id), and a
second call with the same tag returns that same session id without touching
the store; moreover the node created by a successfully ingested
`question_presented` event always belongs to the session so resolved. -/
theorem session_resolution_idempotent
    (db : DB) (now now₂ : Nat) (tag : String) (ev : EventIn) :
    (tag ≠ "" →
     (∀ s ∈ db.sessions, s.external_id ≠ some tag) →
       (getOrCreateSessionId db now tag).2.sessions =
           db.sessions ++
             [{ id := db.nextSessionId, external_id := some tag,
                name := "Session " ++ tag, started_at := some now, ended_at := none,
                created_at := now }] ∧
       (getOrCreateSessionId db now tag).1 = db.nextSessionId ∧
       getOrCreateSessionId (getOrCreateSessionId db now tag).2 now₂ tag =
         ((getOrCreateSessionId db now tag).1, (getOrCreateSessionId db now tag).2)) ∧
    (∀ db' out, ingestEvent db now ev = .ok (db', out) →
     ev.event_type = .question_presented →
       ∃ nid, out.affected_node_id = some nid ∧
         ∃ n ∈ db'.nodes, n.id = nid ∧ n.session_id = out.session_id) := by
  constructor
  · intro htag hunseen
    have hfind : db.sessions.find? (fun s => decide (s.external_id = some tag)) = none :=
      List.find?_eq_none.mpr (fun s hs => by
        rw [Bool.not_eq_true, decide_eq_false_iff_not]
        exact hunseen s hs)
    unfold getOrCreateSessionId
    rw [hfind]
    dsimp only
    refine ⟨rfl, rfl, ?_⟩
    rw [find?_append_of_none _ _ _ hfind]
    rw [List.find?_cons_of_pos _ (by simp)]
  · intro db' out hok htype
    unfold ingestEvent at hok
    dsimp only at hok
    rw [applyEvent, htype] at hok
    rcases happ : applyQuestionPresented
        (getOrCreateSessionId db now ev.session_external_id).2 now
        (getOrCreateSessionId db now ev.session_external_id).1 ev with e | p
    · rw [happ] at hok
      exact absurd hok (by simp)
    · rw [happ] at hok
      dsimp only at hok
      rw [Except.ok.injEq, Prod.mk.injEq] at hok
      obtain ⟨hdb, hout⟩ := hok
      obtain ⟨hnid, hnodes, -, -, -⟩ := applyQuestionPresented_ok _ now _ ev p.1 p.2
        (by rw [happ])
      refine ⟨p.2, by rw [← hout], ?_⟩
      refine ⟨mkQuestionNode (getOrCreateSessionId db now ev.session_external_id).2 now
        (getOrCreateSessionId db now ev.session_external_id).1
        (pyStrip (ev.payload.title.getD "")) (cleanRef ev.payload.rationale) (qpOwner ev)
        (cleanRef ev.payload.context_prompt) (cleanRef ev.payload.node_ref), ?_, ?_, ?_⟩
      · rw [← hdb]
        dsimp only
        rw [hnodes]
        exact List.mem_append_right _ (List.mem_cons_self _ _)
      · rw [hnid]
        rfl
      · rw [← hout]
        rfl

theorem session_resolution_idempotent_witness :
    (getOrCreateSessionId dbEmpty 5 "s-1").1 = dbEmpty.nextSessionId :=
  ((session_resolution_idempotent dbEmpty 5 6 "s-1" evSelNoRef).1
    (by decide) (by decide)).2.1

/-- C7: for a `question_presented` event carrying a cleaned parent reference,
a successful application always creates the new node; when the reference
resolves within the session (against the post-insert node table) exactly one
`leads_to` edge from the parent to the new node is appended, and when it does
not resolve no edge is created; moreover an unresolvable parent reference
never makes the event fail — given a non-empty stripped title and a
non-colliding external node reference, the event succeeds no matter what its
parent reference is. -/
theorem questionPresented_parent_edges
    (db : DB) (now sid : Nat) (ev : EventIn) (db' : DB) (nid : Nat) (pr : String)
    (hok : applyQuestionPresented db now sid ev = .ok (db', nid))
    (hpr : cleanRef (pyOr ev.payload.parent_node_ref ev.payload.from_node_ref) = some pr) :
    (∃ n ∈ db'.nodes, n.id = nid) ∧
    (∀ pid, resolveNodeId db'.nodes sid (some pr) = some pid →
       db'.edges = db.edges ++
         [{ id := db.nextEdgeId, from_node_id := pid, to_node_id := nid,
            created_at := now }]) ∧
    (resolveNodeId db'.nodes sid (some pr) = none → db'.edges = db.edges) ∧
    (∀ evb : EventIn, pyStrip (evb.payload.title.getD "") ≠ "" →
      (∀ n ∈ db.nodes, ∀ r, cleanRef evb.payload.node_ref = some r →
         n.external_ref ≠ some r) →
      ∃ q, applyQuestionPresented db now sid evb = .ok q) := by
  obtain ⟨hnid, hnodes, -, hedges, -⟩ :=
    applyQuestionPresented_ok db now sid ev db' nid hok
  rw [hpr] at hedges
  dsimp only at hedges
  refine ⟨?_, ?_, ?_, ?_⟩
  · refine ⟨mkQuestionNode db now sid (pyStrip (ev.payload.title.getD ""))
      (cleanRef ev.payload.rationale) (qpOwner ev) (cleanRef ev.payload.context_prompt)
      (cleanRef ev.payload.node_ref), ?_, ?_⟩
    · rw [hnodes]
      exact List.mem_append_right _ (List.mem_cons_self _ _)
    · rw [hnid]
      rfl
  · intro pid hres
    rw [hnodes] at hres
    rw [hedges, hres, hnid]
  · intro hres
    rw [hnodes] at hres
    rw [hedges, hres]
  · intro evb htitle hfresh
    unfold applyQuestionPresented
    dsimp only
    rw [if_neg htitle]
    have hcond : (match cleanRef evb.payload.node_ref with
        | some r => db.nodes.any (fun n => decide (n.external_ref = some r))
        | none => false) = false := by
      rcases hcr : cleanRef evb.payload.node_ref with _ | r
      · rfl
      · rw [List.any_eq_false]
        intro n hn
        rw [Bool.not_eq_true, decide_eq_false_iff_not]
        exact hfresh n hn r hcr
    rw [hcond]
    simp only [Bool.false_eq_true, if_false]
    exact ⟨_, rfl⟩

/-- A `question_presented` event whose parent reference resolves to nothing. -/
def evQ2Orphan : EventIn :=
  { event_type := .question_presented, session_external_id := "s-1",
    payload := { title := some "Q2", node_ref := some "q-2",
                 parent_node_ref := some "missing" } }

/-- The store after `evQ2Orphan` on `dbSelect`: the node exists, no edge. -/
def dbQ2Orphan : DB :=
  { dbSelect with
    nodes := dbSelect.nodes ++
      [{ id := 2, session_id := 1, external_ref := some "q-2", type := .question,
         title := "Q2", status := .open_, rationale := none, owner := none,
         priority := none, context_prompt := none, created_at := 4, updated_at := 4 }],
    nextNodeId := 3 }

theorem questionPresented_parent_edges_witness :
    dbQ2Orphan.edges = dbSelect.edges :=
  (questionPresented_parent_edges dbSelect 4 1 evQ2Orphan dbQ2Orphan 2 "missing"
    (by decide) (by decide)).2.2.1 (by decide)

theorem getOrCreate_eventLog (db : DB) (now : Nat) (tag : String) :
    (getOrCreateSessionId db now tag).2.eventLog = db.eventLog := by
  unfold getOrCreateSessionId
  split <;> rfl

theorem applyEvent_eventLog (db : DB) (now sid : Nat) (ev : EventIn)
    (db₂ : DB) (nid : Nat) (hok : applyEvent db now sid ev = .ok (db₂, nid)) :
    db₂.eventLog = db.eventLog := by
  unfold applyEvent at hok
  cases htype : ev.event_type <;> rw [htype] at hok
  case question_presented =>
    exact (applyQuestionPresented_ok db now sid ev db₂ nid hok).2.2.2.2
  case choice_selected =>
    unfold applyChoiceSelected at hok
    dsimp only at hok
    split at hok
    · exact absurd hok (by simp)
    · split at hok
      · exact absurd hok (by simp)
      · rw [Except.ok.injEq, Prod.mk.injEq] at hok
        rw [← hok.1]
  case note_added =>
    unfold applyNoteAdded at hok
    dsimp only at hok
    split at hok
    · exact absurd hok (by simp)
    · split at hok
      · exact absurd hok (by simp)
      · rw [Except.ok.injEq, Prod.mk.injEq] at hok
        rw [← hok.1]
  case node_status_changed =>
    unfold applyNodeStatusChanged at hok
    dsimp only at hok
    split at hok
    · exact absurd hok (by simp)
    · split at hok
      · exact absurd hok (by simp)
      · rw [Except.ok.injEq, Prod.mk.injEq] at hok
        rw [← hok.1]

/-- C9: event ingestion is atomic.  When any step of the reducer fails, the
observable store after the call (`runIngest`, which commits only on success
as `get_conn` does) is exactly the store before it — no session, node,
choice, or edge mutation and no audit record survive; and when the whole
event succeeds, exactly one audit record — carrying the event's source, type,
full payload, and the resolved session — is appended to the event log, which
no reducer step itself ever writes. -/
theorem ingest_atomic (db : DB) (now : Nat) (ev : EventIn) :
    (∀ e, ingestEvent db now ev = .error e → runIngest db now ev = db) ∧
    (∀ db' out, ingestEvent db now ev = .ok (db', out) →
       ∃ entry : EventLogEntry,
         db'.eventLog = db.eventLog ++ [entry] ∧
         entry.session_id = out.session_id ∧ entry.source = ev.source ∧
         entry.event_type = ev.event_type ∧ entry.payload_json = ev) := by
  constructor
  · intro e herr
    unfold runIngest
    rw [herr]
  · intro db' out hok
    unfold ingestEvent at hok
    dsimp only at hok
    rcases happ : applyEvent (getOrCreateSessionId db now ev.session_external_id).2 now
        (getOrCreateSessionId db now ev.session_external_id).1 ev with e | p
    · rw [happ] at hok
      exact absurd hok (by simp)
    · rw [happ] at hok
      dsimp only at hok
      rw [Except.ok.injEq, Prod.mk.injEq] at hok
      obtain ⟨hdb, hout⟩ := hok
      have hlog1 := applyEvent_eventLog _ now _ ev p.1 p.2 (by rw [happ])
      have hlog0 := getOrCreate_eventLog db now ev.session_external_id
      refine ⟨{ id := p.1.nextEventLogId,
                session_id := (getOrCreateSessionId db now ev.session_external_id).1,
                source := ev.source, event_type := ev.event_type, payload_json := ev,
                received_at := now }, ?_, ?_, rfl, rfl, rfl⟩
      · rw [← hdb]
        dsimp only
        rw [hlog1, hlog0]
      · rw [← hout]
  
/-- A `question_presented` event with no title: its reducer step fails. -/
def evNoTitle : EventIn :=
  { event_type := .question_presented, session_external_id := "s-new",
    payload := {} }

theorem ingest_atomic_witness : runIngest dbEmpty 0 evNoTitle = dbEmpty :=
  (ingest_atomic dbEmpty 0 evNoTitle).1
    (.badRequest "question_presented requires payload.title") (by decide)

theorem toNat_charOfNat_or (n : Nat) : (Char.ofNat n).toNat = n ∨ (Char.ofNat n).toNat = 0 := by
  unfold Char.ofNat
  split
  · left
    simp [Char.ofNatAux, Char.toNat, UInt32.toNat]
  · right
    rfl

theorem isSpaceChar_ofNat_add (i : Nat) : isSpaceChar (Char.ofNat (65 + i)) = false := by
  have h := toNat_charOfNat_or (65 + i)
  have hs : (' ').toNat = 32 := by decide
  have ht : ('\t').toNat = 9 := by decide
  have hn : ('\n').toNat = 10 := by decide
  have hr : ('\r').toNat = 13 := by decide
  have hne : ∀ d : Char, (Char.ofNat (65 + i)).toNat ≠ d.toNat →
      decide (Char.ofNat (65 + i) = d) = false := by
    intro d hd
    apply decide_eq_false
    intro he
    exact hd (by rw [he])
  unfold isSpaceChar
  rw [hne ' ' (by rw [hs]; rcases h with h | h <;> rw [h] <;> omega),
      hne '\t' (by rw [ht]; rcases h with h | h <;> rw [h] <;> omega),
      hne '\n' (by rw [hn]; rcases h with h | h <;> rw [h] <;> omega),
      hne '\r' (by rw [hr]; rcases h with h | h <;> rw [h] <;> omega)]
  rfl

theorem pyStrip_singleton (c : Char) (h : isSpaceChar c = false) :
    pyStrip (String.singleton c) = String.singleton c := by
  unfold pyStrip String.singleton
  simp [List.dropWhile, h]
  rfl

theorem pyStrip_autoLabel (i : Nat) : pyStrip (autoLabel i) = autoLabel i :=
  pyStrip_singleton _ (isSpaceChar_ofNat_add i)

/-- The label a choice entry receives, in the words of the spec: a bare
string is auto-labeled `A, B, C, …` by its zero-based position; a mapping uses
its (stripped) label, falling back to the positional auto-label when the
label is missing or empty. -/
def specChoiceLabel (item : ChoiceItem) (index : Nat) : String :=
  match item with
  | .str _ => autoLabel index
  | .obj label _ =>
    match label with
    | none => autoLabel index
    | some l => if l = "" then autoLabel index else pyStrip l

/-- The text a choice entry receives, in the words of the spec: a bare string
is its own (stripped) text; a mapping supplies its (stripped) text, defaulting
to empty when missing. -/
def specChoiceText (item : ChoiceItem) : String :=
  match item with
  | .str s => pyStrip s
  | .obj _ text =>
    match text with
    | none => ""
    | some t => pyStrip t

theorem pyStrip_empty : pyStrip "" = "" := rfl

theorem specNormalize_eq (item : ChoiceItem) (index : Nat) :
    (specChoiceLabel item index, specChoiceText item) = normalizeChoice item index := by
  cases item with
  | str s => rfl
  | obj label text =>
    cases label with
    | none =>
      cases text with
      | none =>
        simp [specChoiceLabel, specChoiceText, normalizeChoice, pyOrDefault,
          pyStrip_autoLabel, pyStrip_empty]
      | some t =>
        by_cases ht : t = "" <;>
          simp [specChoiceLabel, specChoiceText, normalizeChoice, pyOrDefault,
            ht, pyStrip_autoLabel, pyStrip_empty]
    | some l =>
      by_cases hl : l = "" <;> cases text with
      | none =>
        simp [specChoiceLabel, specChoiceText, normalizeChoice, pyOrDefault,
          hl, pyStrip_autoLabel, pyStrip_empty]
      | some t =>
        by_cases ht : t = "" <;>
          simp [specChoiceLabel, specChoiceText, normalizeChoice, pyOrDefault,
            hl, ht, pyStrip_autoLabel, pyStrip_empty]

/-- Whether some `(label, text)` pair of the list carries the label. -/
def hasLabel (ps : List (String × String)) (l : String) : Bool :=
  ps.any (fun q => decide (q.1 = l))

/-- Modelled from the spec's wording for the choices of a `question_presented`
event: each entry is normalized (bare strings auto-labeled by position,
mappings with their label or the positional auto-label); entries with empty
stripped text are skipped silently; and when two entries produce the same
label the later one replaces the earlier one.  The result lists the surviving
`(label, text)` pairs, ordered by the position of each label's last
occurrence. -/
def specChoices : List ChoiceItem → Nat → List (String × String)
  | [], _ => []
  | item :: rest, index =>
    let lbl := specChoiceLabel item index
    let txt := specChoiceText item
    let tail := specChoices rest (index + 1)
    if txt = "" then tail
    else if hasLabel tail lbl then tail
    else (lbl, txt) :: tail

/-- Replace-merge of a prior label/text list with a newer one: prior entries
whose label reappears later are dropped. -/
def specMerge (prior new : List (String × String)) : List (String × String) :=
  prior.filter (fun q => !(hasLabel new q.1)) ++ new

theorem specMerge_nil (prior : List (String × String)) : specMerge prior [] = prior := by
  unfold specMerge
  rw [List.append_nil]
  apply List.filter_eq_self.mpr
  intro q _
  rfl

theorem specChoices_nodup_labels (items : List ChoiceItem) (index : Nat) :
    (specChoices items index).Pairwise (fun a b => a.1 ≠ b.1) := by
  induction items generalizing index with
  | nil => exact List.Pairwise.nil
  | cons item rest ih =>
    unfold specChoices
    dsimp only
    split
    · exact ih (index + 1)
    · split
      · exact ih (index + 1)
      · rename_i hno
        refine List.Pairwise.cons ?_ (ih (index + 1))
        intro q hq
        have := List.any_eq_false.mp (Bool.not_eq_true _ ▸ hno) q hq
        rw [Bool.not_eq_true, decide_eq_false_iff_not] at this
        exact fun he => this (he ▸ rfl)

theorem choicesOf_insert (cs : List Choice) (nid : Nat) (lbl txt : String) (nextId : Nat) :
    (choicesOf (cs.filter (fun c => !(decide (c.node_id = nid ∧ c.label = lbl))) ++
        [{ id := nextId, node_id := nid, label := lbl, text := txt,
           is_chosen := false, chosen_at := none }]) nid).map (fun c => (c.label, c.text)) =
    ((choicesOf cs nid).map (fun c => (c.label, c.text))).filter
        (fun q => !(decide (q.1 = lbl))) ++ [(lbl, txt)] := by
  unfold choicesOf
  rw [List.filter_append, List.map_append]
  have hL : (cs.filter (fun c => !(decide (c.node_id = nid ∧ c.label = lbl)))).filter
        (fun c => decide (c.node_id = nid)) =
      cs.filter (fun c => decide (c.node_id = nid) && !(decide (c.label = lbl))) := by
    rw [filterFilterEq]
    apply filterCongrMem
    intro c _
    by_cases h1 : c.node_id = nid <;> by_cases h2 : c.label = lbl <;> simp [h1, h2]
  have hR : ((cs.filter (fun c => decide (c.node_id = nid))).map
        (fun c => (c.label, c.text))).filter (fun q => !(decide (q.1 = lbl))) =
      (cs.filter (fun c => decide (c.node_id = nid) && !(decide (c.label = lbl)))).map
        (fun c => (c.label, c.text)) := by
    rw [filterOfMap, filterFilterEq]
  congr 1
  · rw [hL]
    exact hR.symm
  · simp

theorem specMerge_insert (P tail : List (String × String)) (lbl txt : String) :
    specMerge (P.filter (fun q => !(decide (q.1 = lbl))) ++ [(lbl, txt)]) tail =
    specMerge P (if hasLabel tail lbl then tail else (lbl, txt) :: tail) := by
  unfold specMerge
  rw [List.filter_append]
  by_cases h : hasLabel tail lbl = true
  · rw [if_pos h]
    have hsingle : ([((lbl : String), txt)].filter (fun q => !(hasLabel tail q.1))) = [] := by
      simp [h]
    rw [hsingle, List.append_nil]
    congr 1
    rw [filterFilterEq]
    apply filterCongrMem
    intro q _
    by_cases hq : hasLabel tail q.1 = true
    · simp [hq]
    · have hne : ¬(q.1 = lbl) := fun he => hq (he ▸ h)
      simp [hq, hne]
  · rw [if_neg h]
    have hb : hasLabel tail lbl = false := Bool.eq_false_iff.mpr h
    have hsingle : ([((lbl : String), txt)].filter (fun q => !(hasLabel tail q.1))) =
        [(lbl, txt)] := by
      simp [hb]
    rw [hsingle, List.append_assoc, List.singleton_append]
    congr 1
    rw [filterFilterEq]
    apply filterCongrMem
    intro q _
    by_cases h1 : q.1 = lbl
    · rw [h1]
      have hcons : hasLabel ((lbl, txt) :: tail) lbl = true := by
        simp [hasLabel]
      simp [hcons, hb]
    · have hcons : hasLabel ((lbl, txt) :: tail) q.1 = hasLabel tail q.1 := by
        unfold hasLabel
        rw [List.any_cons, decide_eq_false (fun he : lbl = q.1 => h1 he.symm), Bool.false_or]
      rw [hcons, decide_eq_false h1]
      simp

theorem insertChoicesAux_proj (nid : Nat) (items : List ChoiceItem) (index : Nat)
    (cs : List Choice) (nextId : Nat) :
    (choicesOf (insertChoicesAux nid items index cs nextId).1 nid).map
        (fun c => (c.label, c.text)) =
    specMerge ((choicesOf cs nid).map (fun c => (c.label, c.text)))
      (specChoices items index) := by
  induction items generalizing index cs nextId with
  | nil =>
    rw [insertChoicesAux, specChoices, specMerge_nil]
  | cons item rest ih =>
    have hlbl : specChoiceLabel item index = (normalizeChoice item index).1 :=
      congrArg Prod.fst (specNormalize_eq item index)
    have htext : specChoiceText item = (normalizeChoice item index).2 :=
      congrArg Prod.snd (specNormalize_eq item index)
    unfold insertChoicesAux specChoices
    dsimp only
    by_cases htxt : (normalizeChoice item index).2 = ""
    · rw [if_pos htxt, if_pos (htext.trans htxt)]
      exact ih (index + 1) cs nextId
    · rw [if_neg htxt, if_neg (fun hc => htxt (htext.symm.trans hc))]
      rw [ih (index + 1) _ (nextId + 1)]
      rw [choicesOf_insert cs nid (normalizeChoice item index).1 (normalizeChoice item index).2 nextId]
      rw [hlbl, htext]
      exact specMerge_insert _ _ _ _

/-- C8: the choices stored for the node created by a `question_presented`
event are exactly the spec-side normalization of the payload entries: a bare
string at zero-based position `i` gets the auto-label `chr(65 + i)` and its
stripped self as text, a mapping uses its label (the positional auto-label
when the label is missing or empty) and its text, entries whose stripped text
is empty are silently skipped, and when two entries produce the same label
the later entry replaces the earlier one — so the node never carries two
choices with the same label. -/
theorem questionPresented_choice_normalization
    (db : DB) (now sid : Nat) (ev : EventIn) (db' : DB) (nid : Nat)
    (hfresh : ∀ c ∈ db.choices, c.node_id ≠ db.nextNodeId)
    (hok : applyQuestionPresented db now sid ev = .ok (db', nid)) :
    (choicesOf db'.choices nid).map (fun c => (c.label, c.text)) =
      specChoices (ev.payload.choices.getD []) 0 ∧
    (choicesOf db'.choices nid).Pairwise (fun a b => a.label ≠ b.label) := by
  obtain ⟨hnid, -, hchoices, -, -⟩ := applyQuestionPresented_ok db now sid ev db' nid hok
  subst hnid
  have hbase : choicesOf db.choices db.nextNodeId = [] := by
    unfold choicesOf
    exact List.filter_eq_nil_iff.mpr (fun c hc =>
      by rw [Bool.not_eq_true, decide_eq_false_iff_not]; exact hfresh c hc)
  have h := insertChoicesAux_proj db.nextNodeId (ev.payload.choices.getD []) 0
    db.choices db.nextChoiceId
  rw [hbase] at h
  have hmain : (choicesOf db'.choices db.nextNodeId).map (fun c => (c.label, c.text)) =
      specChoices (ev.payload.choices.getD []) 0 := by
    rw [hchoices, h]
    unfold specMerge
    rw [List.map_nil, List.filter_nil, List.nil_append]
  refine ⟨hmain, ?_⟩
  have hnodup := specChoices_nodup_labels (ev.payload.choices.getD []) 0
  rw [← hmain] at hnodup
  rw [List.pairwise_map] at hnodup
  exact hnodup

/-- A `question_presented` event exercising each normalization rule: a bare
string, a labeled mapping, an entry with blank text (skipped), another bare
string, and a mapping whose label `A` duplicates the auto-label of the first
entry (replacing it). -/
def evQChoices : EventIn :=
  { event_type := .question_presented, session_external_id := "s-c",
    payload := { title := some "T",
                 choices := some [.str " One ", .obj (some "B") (some "Two"),
                                  .obj none (some "  "), .str "Three",
                                  .obj (some "A") (some "Four")] } }

/-- The store after `evQChoices` on the empty store. -/
def dbQChoices : DB :=
  { dbEmpty with
    nodes := [{ id := 1, session_id := 1, external_ref := none, type := .question,
                title := "T", status := .open_, rationale := none, owner := none,
                priority := none, context_prompt := none, created_at := 2, updated_at := 2 }],
    choices := [{ id := 2, node_id := 1, label := "B", text := "Two",
                  is_chosen := false, chosen_at := none },
                { id := 3, node_id := 1, label := "D", text := "Three",
                  is_chosen := false, chosen_at := none },
                { id := 4, node_id := 1, label := "A", text := "Four",
                  is_chosen := false, chosen_at := none }],
    nextNodeId := 2, nextChoiceId := 5 }

theorem questionPresented_choice_normalization_witness :
    (choicesOf dbQChoices.choices 1).map (fun c => (c.label, c.text)) =
      specChoices (evQChoices.payload.choices.getD []) 0 :=
  (questionPresented_choice_normalization dbEmpty 2 1 evQChoices dbQChoices 1
    (by decide) (by decide)).1

/-- C3 (status/unchosen filters modelled from the spec — `src/` carries only
the unfiltered handler and the tests that call the filters): the graph query's
filters combine and narrow only the returned node list.  With `status = S`
every returned node has exactly status `S`; with `unchosen_only = true` no
returned node has any chosen choice, while nodes with zero choices (passing
the status filter) are still returned; every returned node is an untouched
row of the store belonging to the session; and the returned edge and choice
lists are the plain session joins, unaffected by either filter. -/
theorem sessionGraph_filters
    (db : DB) (sid : Nat) (st : Option NodeStatus) (uo : Bool) (g : SessionGraphOut)
    (hok : getSessionGraph db sid st uo = .ok g) :
    (∀ S, st = some S → ∀ n ∈ g.nodes, n.status = S) ∧
    (uo = true → ∀ n ∈ g.nodes, ∀ c ∈ db.choices, c.node_id = n.id →
       c.is_chosen = false) ∧
    (∀ n ∈ db.nodes, n.session_id = sid → (∀ S, st = some S → n.status = S) →
       (∀ c ∈ db.choices, c.node_id ≠ n.id) → n ∈ g.nodes) ∧
    (∀ n ∈ g.nodes, n ∈ db.nodes ∧ n.session_id = sid) ∧
    g.edges = db.edges.filter (fun e =>
      db.nodes.any (fun n => decide (n.id = e.from_node_id ∧ n.session_id = sid))) ∧
    g.choices = db.choices.filter (fun c =>
      db.nodes.any (fun n => decide (n.id = c.node_id ∧ n.session_id = sid))) := by
  unfold getSessionGraph at hok
  dsimp only at hok
  split at hok
  · exact absurd hok (by simp)
  · rw [Except.ok.injEq] at hok
    subst hok
    have hmem : ∀ n : Node, (n ∈ (if uo = true then
          (match st with
           | some S => (db.nodes.filter (fun m : Node => decide (m.session_id = sid))).filter
               (fun m : Node => decide (m.status = S))
           | none => db.nodes.filter (fun m : Node => decide (m.session_id = sid))).filter
            (fun m : Node => !hasChosenChoice db.choices m.id)
        else
          (match st with
           | some S => (db.nodes.filter (fun m : Node => decide (m.session_id = sid))).filter
               (fun m : Node => decide (m.status = S))
           | none => db.nodes.filter (fun m : Node => decide (m.session_id = sid))))) ↔
        ((n ∈ db.nodes ∧ n.session_id = sid) ∧ (∀ S, st = some S → n.status = S) ∧
         (uo = true → hasChosenChoice db.choices n.id = false)) := by
      intro n
      rcases st with _ | S <;> cases uo <;>
        simp [List.mem_filter, and_assoc] <;>
        tauto
    refine ⟨?_, ?_, ?_, ?_, rfl, rfl⟩
    · intro S hst n hn
      exact ((hmem n).mp hn).2.1 S hst
    · intro huo n hn c hc hcn
      have hch := ((hmem n).mp hn).2.2 huo
      unfold hasChosenChoice at hch
      have := List.any_eq_false.mp hch c hc
      rw [Bool.not_eq_true, decide_eq_false_iff_not] at this
      cases hb : c.is_chosen
      · rfl
      · exact absurd ⟨hcn, hb⟩ this
    · intro n hn hsid hstat hnoc
      refine (hmem n).mpr ⟨⟨hn, hsid⟩, hstat, fun _ => ?_⟩
      unfold hasChosenChoice
      exact List.any_eq_false.mpr (fun c hc => by
        rw [Bool.not_eq_true, decide_eq_false_iff_not]
        exact fun hp => hnoc c hc hp.1)
    · intro n hn
      exact ((hmem n).mp hn).1

/-- The graph of `dbSelect`'s session filtered by `status = done`: no node of
the session has that status, so the node list is empty while the session's
choice join is untouched. -/
def gDone : SessionGraphOut :=
  { session := { id := 1, external_id := some "s-1", name := "S",
                 started_at := some 1, ended_at := none, created_at := 1 },
    nodes := [], edges := [], choices := dbSelect.choices }

theorem sessionGraph_filters_witness :
    gDone.choices = dbSelect.choices.filter (fun c =>
      dbSelect.nodes.any (fun n => decide (n.id = c.node_id ∧ n.session_id = 1))) :=
  (sessionGraph_filters dbSelect 1 (some .done) false gDone (by decide)).2.2.2.2.2

/-- C4 (modelled from the spec — `src/` carries only the tests calling the
endpoint): the replay prompt synthesizer fails with NodeNotFound when no node
has the id and with ChoiceNotFound when no choice of the node carries the
alternative label; otherwise it renders the newline-joined fixed structure —
the `Decision point` header with the node's title, the context prompt when
present, the `Previously chosen path` line with the currently chosen choice,
omitted entirely when no choice of the node is chosen, and the
`Alternative to execute now` line with the requested alternative. -/
theorem replayPrompt_spec
    (nodes : List Node) (choices : List Choice) (node_id : Nat) (alt : String) :
    (nodes.find? (fun n => decide (n.id = node_id)) = none →
       buildReplayPrompt nodes choices node_id alt = .error .nodeNotFound) ∧
    (∀ n, nodes.find? (fun n => decide (n.id = node_id)) = some n →
      ((choices.filter (fun c => decide (c.node_id = node_id))).find?
          (fun c => decide (c.label = alt)) = none →
        buildReplayPrompt nodes choices node_id alt = .error .choiceNotFound) ∧
      (∀ altc, (choices.filter (fun c => decide (c.node_id = node_id))).find?
          (fun c => decide (c.label = alt)) = some altc →
        ((choices.filter (fun c => decide (c.node_id = node_id))).find?
            (fun c => c.is_chosen) = none →
          buildReplayPrompt nodes choices node_id alt = .ok (String.intercalate "\n"
            (["Decision point: " ++ n.title] ++
             (match n.context_prompt with
              | some cp => [cp]
              | none => []) ++
             ["Alternative to execute now: " ++ altc.label ++ ": " ++ altc.text]))) ∧
        (∀ ch, (choices.filter (fun c => decide (c.node_id = node_id))).find?
            (fun c => c.is_chosen) = some ch →
          buildReplayPrompt nodes choices node_id alt = .ok (String.intercalate "\n"
            (["Decision point: " ++ n.title] ++
             (match n.context_prompt with
              | some cp => [cp]
              | none => []) ++
             ["Previously chosen path: " ++ ch.label ++ ": " ++ ch.text] ++
             ["Alternative to execute now: " ++ altc.label ++ ": " ++ altc.text]))))) := by
  constructor
  · intro hn
    unfold buildReplayPrompt buildReplayLines
    rw [hn]
  · intro n hn
    constructor
    · intro halt
      unfold buildReplayPrompt buildReplayLines
      rw [hn]
      dsimp only
      rw [halt]
    · intro altc halt
      constructor
      · intro hch
        unfold buildReplayPrompt buildReplayLines
        rw [hn]
        dsimp only
        rw [halt]
        dsimp only
        rw [hch]
        simp
      · intro ch hch
        unfold buildReplayPrompt buildReplayLines
        rw [hn]
        dsimp only
        rw [halt]
        dsimp only
        rw [hch]

theorem replayPrompt_spec_witness :
    buildReplayPrompt dbSelectA.nodes dbSelectA.choices 1 "B" =
      .ok (String.intercalate "\n"
        (["Decision point: T"] ++ [] ++
         ["Previously chosen path: A: x"] ++
         ["Alternative to execute now: B: y"])) :=
  (((replayPrompt_spec dbSelectA.nodes dbSelectA.choices 1 "B").2
      { id := 1, session_id := 1, external_ref := some "q-1", type := .question,
        title := "T", status := .open_, rationale := none, owner := none,
        priority := none, context_prompt := none, created_at := 1, updated_at := 1 }
      (by decide)).2
    { id := 2, node_id := 1, label := "B", text := "y",
      is_chosen := false, chosen_at := none } (by decide)).2
    { id := 1, node_id := 1, label := "A", text := "x",
      is_chosen := true, chosen_at := some 7 } (by decide)
